import Mathlib

/-!
Verification of `tools/linux/deps.py`: a packaging helper that lists the shared
libraries of an executable (via `ldd`), maps each library to the Debian package
owning it (via `dpkg -S`), looks up each package's installed version
(via `dpkg -s … | grep -oP 'Version:\s*\K[^+-]+'`), and prints a sorted,
comma-separated list of `package (>= version)` constraints.

The three external tools are modelled as oracles collected in a `World`:
* `ldd` : the stdout of `ldd <executable>` (or failure, i.e. a
  `subprocess.CalledProcessError`);
* `dpkgS` : for each library name, the stdout of `dpkg -S <lib>` (or failure);
* `dpkgVer` : for each package name, the value of the `Version:` field of its
  `dpkg -s` status output (or failure, i.e. the package is not installed so the
  `grep` of the shell pipeline matches nothing and the pipeline exits nonzero).

The script's global mutable `error` flag and everything it prints to stdout are
threaded explicitly as a `PState`.  Python string primitives used by the script
(`split`, `splitlines`, `strip`, `in`, `endswith`, `join`) are embedded as
structurally recursive functions on character lists below, so that all
definitions evaluate on concrete inputs inside the kernel.
-/

namespace Deps

/-- Python `sub in s` (substring test) on character lists. -/
def hasSub (sub : List Char) : List Char → Bool
  | [] => sub.isEmpty
  | c :: cs => List.isPrefixOf sub (c :: cs) || hasSub sub cs

/-- Python `word in line` for strings. -/
def strContains (line word : String) : Bool :=
  hasSub word.toList line.toList

/-- Python `s.endswith(t)`. -/
def strEndsWith (s t : String) : Bool :=
  List.isSuffixOf t.toList s.toList

/-- Helper for Python `s.split(sep)` with a one-character separator:
splits at every occurrence of the separator, keeping empty pieces. -/
def splitCharAux (sep : Char) : List Char → List Char → List String
  | [], cur => [String.mk cur.reverse]
  | c :: cs, cur =>
    if c = sep then String.mk cur.reverse :: splitCharAux sep cs []
    else splitCharAux sep cs (c :: cur)

/-- Python `s.split(sep)` for a one-character separator (the script only
splits on `"\n"` and `":"`). -/
def pySplitChar (sep : Char) (s : String) : List String :=
  splitCharAux sep s.toList []

/-- Helper for Python `s.split()` (no argument): accumulates the current run
of non-whitespace characters and emits maximal runs as tokens. -/
def splitWsAux : List Char → List Char → List String
  | [], [] => []
  | [], cur => [String.mk cur.reverse]
  | c :: cs, cur =>
    if c.isWhitespace then
      if cur = [] then splitWsAux cs []
      else String.mk cur.reverse :: splitWsAux cs []
    else splitWsAux cs (c :: cur)

/-- Python `s.split()`: whitespace-delimited tokens, no empty tokens. -/
def pySplit (s : String) : List String :=
  splitWsAux s.toList []

/-- Python `s.splitlines()` restricted to `"\n"` line boundaries (the only
boundary occurring in the tool outputs the script consumes): like splitting
on `"\n"`, except that a trailing line terminator produces no empty final
line and the empty string has no lines. -/
def pySplitlines (s : String) : List String :=
  if s = "" then []
  else
    let l := pySplitChar '\n' s
    if l.getLast? = some "" then l.dropLast else l

/-- Python `s.strip()`: remove leading and trailing whitespace. -/
def pyStrip (s : String) : String :=
  String.mk (((s.toList.dropWhile Char.isWhitespace).reverse.dropWhile
    Char.isWhitespace).reverse)

/-- Process state of the script: the global `error` flag together with the
lines printed to stdout so far. -/
structure PState where
  error : Bool
  output : List String
deriving DecidableEq

/-- `get_shared_libraries` (deps.py lines 9-19): run `ldd` on the executable;
on success keep, in order, the first whitespace token of every non-empty
output line containing `"=>"`; on a `CalledProcessError` return the empty
list, suppressing the failure. -/
def get_shared_libraries (lddOut : Except Unit String) : List String :=
  match lddOut with
  | Except.error _ => []
  | Except.ok output =>
    ((pySplitChar '\n' output).filter
        (fun line => line != "" && strContains line "=>")).map
      (fun line => (pySplit line).headD "")

/-- `IGNORE` (deps.py line 22): substrings marking `dpkg -S` entries to skip. -/
def IGNORE : List String :=
  ["i386", "lib32", "google-chrome", "microsoft-edge", "codium", "windsurf"]

/-- Whether a `dpkg -S` output line contains any `IGNORE` substring. -/
def ignoreMatches (line : String) : Bool :=
  IGNORE.any (fun word => strContains line word)

/-- A character allowed in the `grep` extraction `[^+-]+`: anything except
`+` and `-`. -/
def nonPM (c : Char) : Bool :=
  !(c = '+' || c = '-')

/-- The match `grep -oP` with pattern `Version:\s*\K[^+-]+` produces on the
status line `"Version: " ++ v` (the status output is abstracted by the value
`v` of its unique `Version:` field).  PCRE semantics: the greedy `\s*` first
consumes the maximal whitespace run after `Version:`; if a character follows
and it is not `+`/`-`, the match is the maximal following run of
non-`+`/`-` characters; otherwise `\s*` backtracks by one (always possible,
since the line puts a space after the colon) and the match is that single
whitespace character, which the caller's `strip()` then erases. -/
def grepVersionMatch (v : String) : String :=
  let rest := (" " ++ v).toList
  let ws := rest.takeWhile Char.isWhitespace
  let after := rest.dropWhile Char.isWhitespace
  match after with
  | c :: _ =>
    if nonPM c then String.mk (after.takeWhile nonPM)
    else String.mk [ws.getLastD ' ']
  | [] => String.mk [ws.getLastD ' ']

/-- `get_package_version` (deps.py lines 54-69): extract the version of an
installed package via the shell pipeline, stripping the result; on failure
print `"<package> -> Package not found"`, set the error flag and return the
sentinel `"0.0.0"`. -/
def get_package_version (dpkgVer : String → Except Unit String)
    (package : String) (st : PState) : String × PState :=
  match dpkgVer package with
  | Except.ok v => (pyStrip (grepVersionMatch v), st)
  | Except.error _ =>
    ("0.0.0",
      { error := true,
        output := st.output ++ [package ++ " -> Package not found"] })

/-- The constraint string `f"{package} (>= {version})"`. -/
def mkConstraint (package version : String) : String :=
  package ++ " (>= " ++ version ++ ")"

/-- The body of the `for line in output.splitlines()` loop of
`get_package_for_library` (deps.py lines 35-41): skip lines containing an
`IGNORE` substring; on lines ending in `"/" ++ lib`, take the text before the
first `":"` as the package name, look up its version and add the constraint
string to the accumulated set. -/
def dpkgLine (dpkgVer : String → Except Unit String) (lib : String)
    (acc : Finset String × PState) (line : String) : Finset String × PState :=
  if ignoreMatches line then acc
  else if strEndsWith line ("/" ++ lib) then
    let package := (pySplitChar ':' line).headD ""
    let r := get_package_version dpkgVer package acc.2
    (insert (mkConstraint package r.1) acc.1, r.2)
  else acc

/-- The whole loop of `get_package_for_library` over the `dpkg -S` output
lines, starting from the empty candidate set. -/
def collectPackages (dpkgVer : String → Except Unit String) (lib : String)
    (lines : List String) (st : PState) : Finset String × PState :=
  lines.foldl (dpkgLine dpkgVer lib) (∅, st)

/-- `get_package_for_library` (deps.py lines 25-51): on `dpkg -S` success,
collect the candidate constraint strings from the output lines; when the
resulting set does not have exactly one element, print
`"error <lib> <set>"` (modelled as the line `"error " ++ lib`; the set's
Python repr is omitted) and set the error flag, but still return the set.
On `dpkg -S` failure, print `"<lib> -> Package not found"`, set the error
flag and return the empty set. -/
def get_package_for_library (dpkgS : String → Except Unit String)
    (dpkgVer : String → Except Unit String) (lib : String) (st : PState) :
    Finset String × PState :=
  match dpkgS lib with
  | Except.error _ =>
    (∅, { error := true,
          output := st.output ++ [lib ++ " -> Package not found"] })
  | Except.ok out =>
    let r := collectPackages dpkgVer lib (pySplitlines out) st
    if r.1.card ≠ 1 then
      (r.1, { error := true, output := r.2.output ++ ["error " ++ lib] })
    else r

/-- The oracles describing one run: the program name (`sys.argv[0]`) and the
outcomes of the three external tools. -/
structure World where
  argv0 : String
  ldd : Except Unit String
  dpkgS : String → Except Unit String
  dpkgVer : String → Except Unit String

/-- `FALLBACK` (deps.py lines 92-98): the hard-coded constraint list printed
when no dynamic dependencies are found. -/
def FALLBACK : List String :=
  ["libcairo2 (>= 1.18.0)",
   "libdav1d7 (>= 1.4.1)",
   "libgdk-pixbuf-2.0-0 (>= 2.42.10)",
   "libgtk-4-1 (>= 4.14.5)",
   "libpango-1.0-0 (>= 1.52.1)"]

/-- Python `sep.join(l)`. -/
def pyJoin (sep : String) : List String → String
  | [] => ""
  | [x] => x
  | x :: y :: ys => x ++ sep ++ pyJoin sep (y :: ys)

/-- Outcome of one run of the script: its exit code and the lines printed to
stdout. -/
structure RunResult where
  exitCode : Nat
  stdout : List String
deriving DecidableEq

/-- The `for lib in shared_libs: all.update(get_package_for_library(lib))`
loop of `main` (deps.py lines 81-83): union the per-library candidate sets
while threading the process state. -/
def processLibs (w : World) (libs : List String)
    (acc : Finset String × PState) : Finset String × PState :=
  libs.foldl
    (fun a lib =>
      let r := get_package_for_library w.dpkgS w.dpkgVer lib a.2
      (a.1 ∪ r.1, r.2))
    acc

/-- The resolution phase of `main`: process every listed library starting
from the empty set, no error and no output. -/
def resolution (w : World) : Finset String × PState :=
  processLibs w (get_shared_libraries w.ldd)
    (∅, { error := false, output := [] })

/-- Python `sorted(list(s))` for a set of strings: the elements in ascending
lexicographic order. -/
def sortedConstraints (s : Finset String) : List String :=
  Finset.sort (fun a b => a ≤ b) s

/-- `main` (deps.py lines 72-102): usage check (exit 1); list the shared
libraries; if there are any, resolve them all, then either exit 2 on a
flagged error (printing nothing further) or print the sorted, comma-joined
constraints; with no libraries print the joined `FALLBACK` line.  The exit
code is 0 when the script runs to completion. -/
def main (argc : Nat) (w : World) : RunResult :=
  if argc ≠ 2 then
    { exitCode := 1,
      stdout := ["Usage: " ++ w.argv0 ++ " <path_to_executable>"] }
  else if get_shared_libraries w.ldd ≠ [] then
    let r := resolution w
    if r.2.error then
      { exitCode := 2, stdout := r.2.output }
    else
      { exitCode := 0,
        stdout := r.2.output ++ [pyJoin ", " (sortedConstraints r.1)] }
  else
    { exitCode := 0, stdout := [pyJoin ", " FALLBACK] }

/-! ### Helper lemmas -/

/-- A failed version lookup never clears the error flag, a successful one
leaves the state untouched. -/
theorem get_package_version_error_mono (dpkgVer : String → Except Unit String)
    (pkg : String) (st : PState) (h : st.error = true) :
    (get_package_version dpkgVer pkg st).2.error = true := by
  cases hv : dpkgVer pkg <;> simp [get_package_version, hv, h]

/-- One loop iteration of the resolver never clears the error flag. -/
theorem dpkgLine_error_mono (dpkgVer : String → Except Unit String)
    (lib : String) (acc : Finset String × PState) (line : String)
    (h : acc.2.error = true) :
    (dpkgLine dpkgVer lib acc line).2.error = true := by
  cases hig : ignoreMatches line
  · cases hend : strEndsWith line ("/" ++ lib)
    · simp [dpkgLine, hig, hend, h]
    · simp [dpkgLine, hig, hend, get_package_version_error_mono _ _ _ h]
  · simp [dpkgLine, hig, h]

/-- The resolver loop never clears the error flag. -/
theorem foldl_dpkgLine_error_mono (dpkgVer : String → Except Unit String)
    (lib : String) :
    ∀ (lines : List String) (acc : Finset String × PState),
      acc.2.error = true →
      (List.foldl (dpkgLine dpkgVer lib) acc lines).2.error = true := by
  intro lines
  induction lines with
  | nil => intro acc h; exact h
  | cons a as ih =>
    intro acc h
    exact ih (dpkgLine dpkgVer lib acc a) (dpkgLine_error_mono _ _ _ _ h)

/-- `get_package_for_library` never clears the error flag. -/
theorem get_package_for_library_error_mono
    (dpkgS dpkgVer : String → Except Unit String) (lib : String) (st : PState)
    (h : st.error = true) :
    (get_package_for_library dpkgS dpkgVer lib st).2.error = true := by
  cases hs : dpkgS lib with
  | error e => simp [get_package_for_library, hs]
  | ok out =>
    simp only [get_package_for_library, hs]
    split
    · rfl
    · exact foldl_dpkgLine_error_mono dpkgVer lib (pySplitlines out) (∅, st) h

/-- The version value computed by `get_package_version` does not depend on
the incoming process state. -/
theorem get_package_version_fst (dpkgVer : String → Except Unit String)
    (pkg : String) (st st' : PState) :
    (get_package_version dpkgVer pkg st).1 =
      (get_package_version dpkgVer pkg st').1 := by
  cases hv : dpkgVer pkg <;> simp [get_package_version, hv]

/-- The candidate set accumulated by the resolver loop does not depend on
the incoming process state. -/
theorem foldl_dpkgLine_fst (dpkgVer : String → Except Unit String)
    (lib : String) :
    ∀ (lines : List String) (s : Finset String) (st st' : PState),
      (List.foldl (dpkgLine dpkgVer lib) (s, st) lines).1 =
        (List.foldl (dpkgLine dpkgVer lib) (s, st') lines).1 := by
  intro lines
  induction lines with
  | nil => intro s st st'; rfl
  | cons a as ih =>
    intro s st st'
    simp only [List.foldl_cons]
    cases hig : ignoreMatches a
    · cases hend : strEndsWith a ("/" ++ lib)
      · simp only [dpkgLine, hig, Bool.false_eq_true, if_false, hend]
        exact ih s st st'
      · simp only [dpkgLine, hig, Bool.false_eq_true, if_false, hend, if_true]
        rw [get_package_version_fst dpkgVer ((pySplitChar ':' a).headD "") st st']
        exact ih _ _ _
    · simp only [dpkgLine, hig, if_true]
      exact ih s st st'

/-- The candidate set returned by `get_package_for_library` does not depend
on the incoming process state (in both card branches the set part of the
result is the collected set). -/
theorem get_package_for_library_fst
    (dpkgS dpkgVer : String → Except Unit String) (lib : String)
    (st st' : PState) :
    (get_package_for_library dpkgS dpkgVer lib st).1 =
      (get_package_for_library dpkgS dpkgVer lib st').1 := by
  have hcard : ∀ (r : Finset String × PState),
      (if r.1.card ≠ 1 then
        (r.1, ({ error := true,
                 output := r.2.output ++ ["error " ++ lib] } : PState))
       else r).1 = r.1 := by
    intro r; split <;> rfl
  cases hs : dpkgS lib with
  | error e => simp [get_package_for_library, hs]
  | ok out =>
    simp only [get_package_for_library, hs]
    rw [hcard, hcard]
    exact foldl_dpkgLine_fst dpkgVer lib (pySplitlines out) ∅ st st'

/-- The candidate constraint set for one library, as computed from a clean
state; by the lemmas above this is the set the script obtains for that
library whatever state the loop has reached. -/
def packagesFor (w : World) (lib : String) : Finset String :=
  (get_package_for_library w.dpkgS w.dpkgVer lib
    { error := false, output := [] }).1

/-- Aggregation never clears the error flag. -/
theorem processLibs_error_mono (w : World) :
    ∀ (libs : List String) (acc : Finset String × PState),
      acc.2.error = true → (processLibs w libs acc).2.error = true := by
  intro libs
  induction libs with
  | nil => intro acc h; exact h
  | cons a as ih =>
    intro acc h
    exact ih _ (get_package_for_library_error_mono _ _ _ _ h)

/-- Membership in the aggregated candidate set: exactly the strings
contributed by some processed library (or already accumulated). -/
theorem processLibs_mem (w : World) :
    ∀ (libs : List String) (acc : Finset String × PState) (s : String),
      s ∈ (processLibs w libs acc).1 ↔
        s ∈ acc.1 ∨ ∃ lib ∈ libs, s ∈ packagesFor w lib := by
  intro libs
  induction libs with
  | nil => intro acc s; simp [processLibs]
  | cons a as ih =>
    intro acc s
    have hstep : processLibs w (a :: as) acc =
        processLibs w as
          (acc.1 ∪ (get_package_for_library w.dpkgS w.dpkgVer a acc.2).1,
           (get_package_for_library w.dpkgS w.dpkgVer a acc.2).2) := rfl
    rw [hstep, ih]
    rw [show (get_package_for_library w.dpkgS w.dpkgVer a acc.2).1 =
        packagesFor w a from
      get_package_for_library_fst w.dpkgS w.dpkgVer a acc.2
        { error := false, output := [] }]
    simp only [Finset.mem_union, List.mem_cons]
    constructor
    · rintro (⟨h | h⟩ | ⟨lib, hm, h⟩)
      · exact Or.inl h
      · exact Or.inr ⟨a, Or.inl rfl, h⟩
      · exact Or.inr ⟨lib, Or.inr hm, h⟩
    · rintro (h | ⟨lib, hm | hm, h⟩)
      · exact Or.inl (Or.inl h)
      · exact Or.inl (Or.inr (hm ▸ h))
      · exact Or.inr ⟨lib, hm, h⟩

/-! ### Claim theorems -/

/-- C1: if the Dependency Lister returns at least one library and the
process-wide error flag was set during resolution, the run exits with status
code 2 and its stdout is exactly the resolution log: the constraint line is
not printed. -/
theorem error_flag_forces_exit2 (w : World)
    (hlibs : get_shared_libraries w.ldd ≠ [])
    (herr : (resolution w).2.error = true) :
    main 2 w = { exitCode := 2, stdout := (resolution w).2.output } := by
  simp [main, hlibs, herr]

/-- A run in which the only library's `dpkg -S` query fails. -/
def w1 : World :=
  { argv0 := "deps",
    ldd := Except.ok "liba.so => /usr/lib/liba.so (0x0)",
    dpkgS := fun _ => Except.error (),
    dpkgVer := fun _ => Except.error () }

theorem error_flag_forces_exit2_witness :
    main 2 w1 = { exitCode := 2, stdout := ["liba.so -> Package not found"] } := by
  rw [error_flag_forces_exit2 w1 (by decide) (by decide)]
  decide

/-- C4: when the Dependency Lister returns zero libraries the run prints
exactly the fixed fallback constraint line and exits with code 0. -/
theorem no_libs_prints_fallback (w : World)
    (h : get_shared_libraries w.ldd = []) :
    main 2 w =
      { exitCode := 0,
        stdout := ["libcairo2 (>= 1.18.0), libdav1d7 (>= 1.4.1), libgdk-pixbuf-2.0-0 (>= 2.42.10), libgtk-4-1 (>= 4.14.5), libpango-1.0-0 (>= 1.52.1)"] } := by
  have h2 : main 2 w = { exitCode := 0, stdout := [pyJoin ", " FALLBACK] } := by
    simp [main, h]
  rw [h2]
  decide

/-- A run on a statically-linked executable: `ldd` fails. -/
def w0 : World :=
  { argv0 := "deps",
    ldd := Except.error (),
    dpkgS := fun _ => Except.error (),
    dpkgVer := fun _ => Except.error () }

theorem no_libs_prints_fallback_witness :
    main 2 w0 =
      { exitCode := 0,
        stdout := ["libcairo2 (>= 1.18.0), libdav1d7 (>= 1.4.1), libgdk-pixbuf-2.0-0 (>= 2.42.10), libgtk-4-1 (>= 4.14.5), libpango-1.0-0 (>= 1.52.1)"] } :=
  no_libs_prints_fallback w0 rfl

/-- C7: outright lookup failures substitute safe defaults and flag the
error rather than aborting: a failed version query logs, sets the flag and
returns the sentinel `"0.0.0"`; a failed package-file query logs, sets the
flag and returns the empty set; and aggregation continues with the
remaining libraries from the post-failure state. -/
theorem lookup_failure_defaults (ds dv : String → Except Unit String)
    (lib pkg : String) (st : PState) :
    (dv pkg = Except.error () →
      get_package_version dv pkg st =
        ("0.0.0",
         { error := true,
           output := st.output ++ [pkg ++ " -> Package not found"] })) ∧
    (ds lib = Except.error () →
      get_package_for_library ds dv lib st =
        (∅, { error := true,
              output := st.output ++ [lib ++ " -> Package not found"] })) ∧
    (∀ w libs acc,
      processLibs w (lib :: libs) acc =
        processLibs w libs
          (acc.1 ∪ (get_package_for_library w.dpkgS w.dpkgVer lib acc.2).1,
           (get_package_for_library w.dpkgS w.dpkgVer lib acc.2).2)) := by
  refine ⟨fun h => ?_, fun h => ?_, fun w libs acc => rfl⟩
  · simp [get_package_version, h]
  · simp [get_package_for_library, h]

theorem lookup_failure_defaults_witness :
    get_package_version (fun _ => Except.error ()) "libcairo2"
        { error := false, output := [] } =
      ("0.0.0", { error := true,
                  output := ["libcairo2 -> Package not found"] }) ∧
    get_package_for_library (fun _ => Except.error ())
        (fun _ => Except.error ()) "libcairo.so.2"
        { error := false, output := [] } =
      (∅, { error := true,
            output := ["libcairo.so.2 -> Package not found"] }) := by
  constructor
  · exact ((lookup_failure_defaults (fun _ => Except.error ())
      (fun _ => Except.error ()) "libcairo.so.2" "libcairo2"
      { error := false, output := [] }).1 rfl).trans (by decide)
  · exact ((lookup_failure_defaults (fun _ => Except.error ())
      (fun _ => Except.error ()) "libcairo.so.2" "libcairo2"
      { error := false, output := [] }).2.1 rfl).trans (by decide)

/-- C9: the error flag is monotone: no operation of the script ever resets
it, so once set during resolution the run is forced onto the exit-2 path
(`main` starts resolution from the flag initialized to `false`). -/
theorem error_flag_monotone :
    (∀ (dv : String → Except Unit String) (pkg : String) (st : PState),
      st.error = true → (get_package_version dv pkg st).2.error = true) ∧
    (∀ (ds dv : String → Except Unit String) (lib : String) (st : PState),
      st.error = true →
      (get_package_for_library ds dv lib st).2.error = true) ∧
    (∀ (w : World) (libs : List String) (acc : Finset String × PState),
      acc.2.error = true → (processLibs w libs acc).2.error = true) ∧
    (∀ w : World, get_shared_libraries w.ldd ≠ [] →
      (resolution w).2.error = true → (main 2 w).exitCode = 2) := by
  refine ⟨get_package_version_error_mono,
          get_package_for_library_error_mono,
          fun w => processLibs_error_mono w,
          fun w hlibs herr => ?_⟩
  simp [main, hlibs, herr]

/-- A run whose first library resolves cleanly but whose second library's
version query fails: the flag set at the second library persists. -/
def w3 : World :=
  { argv0 := "deps",
    ldd := Except.ok "libx.so => /usr/lib/libx.so (0x0)",
    dpkgS := fun _ => Except.ok "pkgx: /usr/lib/libx.so",
    dpkgVer := fun _ => Except.error () }

theorem error_flag_monotone_witness :
    (get_package_version (fun _ => Except.error ()) "pkgx"
        { error := true, output := [] }).2.error = true ∧
    (get_package_for_library (fun _ => Except.error ())
        (fun _ => Except.error ()) "libx.so"
        { error := true, output := [] }).2.error = true ∧
    (processLibs w3 ["libx.so"]
        (∅, { error := true, output := [] })).2.error = true ∧
    (main 2 w3).exitCode = 2 :=
  ⟨error_flag_monotone.1 (fun _ => Except.error ()) "pkgx"
      { error := true, output := [] } rfl,
   error_flag_monotone.2.1 (fun _ => Except.error ())
      (fun _ => Except.error ()) "libx.so"
      { error := true, output := [] } rfl,
   error_flag_monotone.2.2.1 w3 ["libx.so"]
      (∅, { error := true, output := [] }) rfl,
   error_flag_monotone.2.2.2 w3 (by decide) (by decide)⟩

/-- C2: when the `dpkg -S` query for a library succeeds, the resolver
returns exactly the candidate constraint set collected from the output
lines; if that set does not have exactly one element the condition is
logged and the error flag is set, but the candidates are not discarded.
When the query itself fails, the empty set is returned and the flag is
set. -/
theorem resolver_flags_but_keeps_candidates
    (ds dv : String → Except Unit String) (lib : String) (st : PState) :
    (∀ out, ds lib = Except.ok out →
      (get_package_for_library ds dv lib st).1 =
        (collectPackages dv lib (pySplitlines out) st).1 ∧
      ((collectPackages dv lib (pySplitlines out) st).1.card ≠ 1 →
        (get_package_for_library ds dv lib st).2.error = true ∧
        (get_package_for_library ds dv lib st).2.output =
          (collectPackages dv lib (pySplitlines out) st).2.output ++
            ["error " ++ lib])) ∧
    (ds lib = Except.error () →
      get_package_for_library ds dv lib st =
        (∅, { error := true,
              output := st.output ++ [lib ++ " -> Package not found"] })) := by
  constructor
  · intro out hok
    refine ⟨?_, fun hc => ?_⟩
    · simp only [get_package_for_library, hok]
      split <;> rfl
    · simp only [get_package_for_library, hok]
      rw [if_pos hc]
      exact ⟨rfl, rfl⟩
  · intro h
    simp [get_package_for_library, h]

theorem resolver_flags_but_keeps_candidates_witness :
    (get_package_for_library (fun _ => Except.ok "no matching line")
        (fun _ => Except.ok "1.0") "libz.so" { error := false, output := [] }).2.error
      = true ∧
    get_package_for_library (fun _ => Except.error ())
        (fun _ => Except.ok "1.0") "libz.so" { error := false, output := [] } =
      (∅, { error := true, output := ["libz.so -> Package not found"] }) := by
  constructor
  · exact (((resolver_flags_but_keeps_candidates
      (fun _ => Except.ok "no matching line") (fun _ => Except.ok "1.0")
      "libz.so" { error := false, output := [] }).1
        "no matching line" rfl).2 (by decide)).1
  · exact ((resolver_flags_but_keeps_candidates (fun _ => Except.error ())
      (fun _ => Except.ok "1.0") "libz.so"
      { error := false, output := [] }).2 rfl).trans (by decide)

/-- C3: `dpkg -S` lines containing an `IGNORE` substring are skipped
entirely by the resolver loop: dropping them beforehand changes nothing
(set, flag and log alike), and one loop step on such a line is the
identity, so an ignored candidate is never counted toward the
exactly-one-owner determination. -/
theorem ignored_lines_never_counted (dv : String → Except Unit String)
    (lib : String) (lines : List String) (st : PState) :
    collectPackages dv lib
        (lines.filter (fun l => !(ignoreMatches l))) st =
      collectPackages dv lib lines st ∧
    (∀ (acc : Finset String × PState) (line : String),
      ignoreMatches line = true → dpkgLine dv lib acc line = acc) := by
  have hskip : ∀ (acc : Finset String × PState) (line : String),
      ignoreMatches line = true → dpkgLine dv lib acc line = acc := by
    intro acc line h
    simp [dpkgLine, h]
  refine ⟨?_, hskip⟩
  have haux : ∀ (ls : List String) (acc : Finset String × PState),
      List.foldl (dpkgLine dv lib) acc (ls.filter (fun l => !(ignoreMatches l))) =
        List.foldl (dpkgLine dv lib) acc ls := by
    intro ls
    induction ls with
    | nil => intro acc; rfl
    | cons a as ih =>
      intro acc
      cases h : ignoreMatches a
      · simp only [List.filter_cons, h, Bool.not_false, if_true, List.foldl_cons]
        exact ih _
      · simp only [List.filter_cons, h, Bool.not_true, if_false, List.foldl_cons,
          hskip acc a h]
        exact ih acc
  exact haux lines (∅, st)

theorem ignored_lines_never_counted_witness :
    dpkgLine (fun _ => Except.ok "1.0") "libx.so"
        (∅, { error := false, output := [] })
        "pkgx:i386: /usr/lib32/libx.so" =
      (∅, { error := false, output := [] }) :=
  (ignored_lines_never_counted (fun _ => Except.ok "1.0") "libx.so" []
    { error := false, output := [] }).2
    (∅, { error := false, output := [] })
    "pkgx:i386: /usr/lib32/libx.so" (by decide)

/-- The Dependency Lister as the specification words it: from the tool's
output lines, keep each non-empty line containing the resolution marker and
extract its first whitespace-delimited token, in order. -/
def listerSpec (out : String) : List String :=
  (pySplitChar '\n' out).filterMap
    (fun line =>
      if line ≠ "" ∧ strContains line "=>" = true
      then some ((pySplit line).headD "") else none)

/-- C5: on tool success the Dependency Lister returns, in the order emitted,
the first whitespace token of each non-empty line containing `"=>"` (it
coincides with the spec-side description `listerSpec`); on tool failure it
returns the empty list, suppressing the error. -/
theorem lister_parses_marker_lines (out : String) :
    get_shared_libraries (Except.ok out) = listerSpec out ∧
    get_shared_libraries (Except.error ()) = [] := by
  refine ⟨?_, rfl⟩
  simp only [get_shared_libraries, listerSpec]
  generalize pySplitChar '\n' out = l
  induction l with
  | nil => rfl
  | cons a as ih =>
    simp only [List.filter_cons, List.filterMap_cons]
    by_cases h1 : a = ""
    · subst h1
      simpa using ih
    · by_cases h2 : strContains a "=>" = true
      · simpa [h1, h2] using ih
      · simpa [h1, h2] using ih

/-- A string made from a non-empty character list is not the empty string. -/
theorem mk_ne_empty (l : List Char) (h : l ≠ []) : String.mk l ≠ "" := by
  intro he
  apply h
  have h2 : (String.mk l).toList = ("" : String).toList := congrArg String.toList he
  exact h2

/-- Tokenizing from a non-empty current run always yields a token. -/
theorem splitWsAux_ne_nil_of_cur :
    ∀ (l cur : List Char), cur ≠ [] → splitWsAux l cur ≠ [] := by
  intro l
  induction l with
  | nil =>
    intro cur h
    cases cur with
    | nil => exact absurd rfl h
    | cons c cs => simp [splitWsAux]
  | cons c cs ih =>
    intro cur h
    cases hw : c.isWhitespace
    · simp only [splitWsAux, hw, Bool.false_eq_true, if_false]
      exact ih (c :: cur) (by simp)
    · simp only [splitWsAux, hw, if_true]
      rw [if_neg h]
      simp

/-- A character list containing a non-whitespace character splits into at
least one token. -/
theorem splitWsAux_ne_nil_of_mem :
    ∀ (l cur : List Char), (∃ c ∈ l, c.isWhitespace = false) →
      splitWsAux l cur ≠ [] := by
  intro l
  induction l with
  | nil =>
    intro cur h
    rcases h with ⟨c, hc, _⟩
    cases hc
  | cons a as ih =>
    intro cur h
    rcases h with ⟨c, hc, hcw⟩
    cases hw : a.isWhitespace
    · simp only [splitWsAux, hw, Bool.false_eq_true, if_false]
      exact splitWsAux_ne_nil_of_cur as (a :: cur) (by simp)
    · have hcas : c ∈ as := by
        rcases List.mem_cons.mp hc with h | h
        · rw [h] at hcw; rw [hw] at hcw; cases hcw
        · exact h
      simp only [splitWsAux, hw, if_true]
      by_cases hcur : cur = []
      · rw [if_pos hcur]
        exact ih [] ⟨c, hcas, hcw⟩
      · rw [if_neg hcur]
        simp

/-- Every token produced by the tokenizer is a non-empty string. -/
theorem splitWsAux_tokens_ne_empty :
    ∀ (l cur : List Char) (s : String), s ∈ splitWsAux l cur → s ≠ "" := by
  intro l
  induction l with
  | nil =>
    intro cur s hs
    cases cur with
    | nil => simp [splitWsAux] at hs
    | cons c cs =>
      simp only [splitWsAux, List.mem_singleton] at hs
      rw [hs]
      exact mk_ne_empty _ (by simp)
  | cons a as ih =>
    intro cur s hs
    cases hw : a.isWhitespace
    · simp only [splitWsAux, hw, Bool.false_eq_true, if_false] at hs
      exact ih (a :: cur) s hs
    · simp only [splitWsAux, hw, if_true] at hs
      by_cases hcur : cur = []
      · rw [if_pos hcur] at hs
        exact ih [] s hs
      · rw [if_neg hcur] at hs
        rcases List.mem_cons.mp hs with h | h
        · rw [h]
          exact mk_ne_empty _ (by simpa using hcur)
        · exact ih [] s h

/-- A character of a list that is a prefix of another list belongs to the
larger list. -/
theorem mem_of_isPrefixOf {c : Char} :
    ∀ (sub l : List Char), c ∈ sub → List.isPrefixOf sub l = true → c ∈ l := by
  intro sub
  induction sub with
  | nil => intro l hc; cases hc
  | cons a as ih =>
    intro l hc hp
    cases l with
    | nil => simp [List.isPrefixOf] at hp
    | cons b bs =>
      rw [List.isPrefixOf_cons₂, Bool.and_eq_true] at hp
      have hab : a = b := eq_of_beq hp.1
      rcases List.mem_cons.mp hc with h | h
      · rw [h, hab]; exact List.mem_cons_self _ _
      · exact List.mem_cons_of_mem _ (ih bs h hp.2)

/-- A character of a substring found somewhere in a list belongs to the
list. -/
theorem mem_of_hasSub {c : Char} :
    ∀ (l sub : List Char), c ∈ sub → hasSub sub l = true → c ∈ l := by
  intro l
  induction l with
  | nil =>
    intro sub hc hh
    simp only [hasSub, List.isEmpty_iff] at hh
    rw [hh] at hc
    cases hc
  | cons a as ih =>
    intro sub hc hh
    simp only [hasSub, Bool.or_eq_true] at hh
    rcases hh with hp | hh
    · exact mem_of_isPrefixOf sub (a :: as) hc hp
    · exact List.mem_cons_of_mem _ (ih sub hc hh)

/-- C10: parsing the `ldd` output is total: a non-empty line containing the
marker `"=>"` always splits into a non-empty token list (its `'='` is not
whitespace), so taking the first token cannot fail; consequently, for every
possible tool output, the Dependency Lister only ever produces genuine
non-empty tokens. -/
theorem marker_line_split_total (line : String)
    (h1 : line ≠ "") (h2 : strContains line "=>" = true) :
    pySplit line ≠ [] ∧
    (∀ out, "" ∉ get_shared_libraries (Except.ok out)) := by
  have key : ∀ line' : String, strContains line' "=>" = true →
      pySplit line' ≠ [] := by
    intro line' hc
    have hmem : ('=' : Char) ∈ line'.toList :=
      mem_of_hasSub line'.toList ("=>".toList) (by decide) hc
    exact splitWsAux_ne_nil_of_mem line'.toList []
      ⟨'=', hmem, by decide⟩
  refine ⟨key line h2, ?_⟩
  intro out hmem
  simp only [get_shared_libraries, List.mem_map] at hmem
  rcases hmem with ⟨line', hline', hhead⟩
  have hcond := (List.mem_filter.mp hline').2
  rw [Bool.and_eq_true] at hcond
  have hne := key line' hcond.2
  cases hsp : pySplit line' with
  | nil => exact hne hsp
  | cons t ts =>
    rw [hsp] at hhead
    have ht : t ∈ splitWsAux line'.toList [] := by
      rw [show splitWsAux line'.toList [] = pySplit line' from rfl, hsp]
      exact List.mem_cons_self _ _
    exact splitWsAux_tokens_ne_empty line'.toList [] t ht hhead

theorem marker_line_split_total_witness :
    pySplit "liba.so => /usr/lib/liba.so (0x0)" ≠ [] :=
  (marker_line_split_total "liba.so => /usr/lib/liba.so (0x0)"
    (by decide) (by decide)).1

/-- C8: on the success path (some libraries and no flagged error) the run
prints, after the resolution log, one line joining with `", "` the sorted
constraint list; that list is lexicographically sorted ascending, has no
duplicates, and its members are exactly the union of the per-library
candidate sets. -/
theorem success_prints_sorted_dedup_union (w : World)
    (hlibs : get_shared_libraries w.ldd ≠ [])
    (herr : (resolution w).2.error = false) :
    main 2 w =
      { exitCode := 0,
        stdout := (resolution w).2.output ++
          [pyJoin ", " (sortedConstraints (resolution w).1)] } ∧
    List.Sorted (fun a b => a ≤ b) (sortedConstraints (resolution w).1) ∧
    (sortedConstraints (resolution w).1).Nodup ∧
    (∀ s, s ∈ sortedConstraints (resolution w).1 ↔
      ∃ lib ∈ get_shared_libraries w.ldd, s ∈ packagesFor w lib) := by
  refine ⟨?_, Finset.sort_sorted _ _, Finset.sort_nodup _ _, fun s => ?_⟩
  · simp [main, hlibs, herr]
  · rw [sortedConstraints, Finset.mem_sort]
    have h := processLibs_mem w (get_shared_libraries w.ldd)
      (∅, { error := false, output := [] }) s
    simpa [resolution] using h

/-- A run whose single library resolves cleanly to one package. -/
def w2 : World :=
  { argv0 := "deps",
    ldd := Except.ok "libc.so.6 => /lib/x86_64-linux-gnu/libc.so.6 (0x0)",
    dpkgS := fun _ => Except.ok "libc6: /lib/x86_64-linux-gnu/libc.so.6",
    dpkgVer := fun _ => Except.ok "2.39-0ubuntu8.2" }

theorem success_prints_sorted_dedup_union_witness :
    main 2 w2 = { exitCode := 0, stdout := ["libc6 (>= 2.39)"] } := by
  rw [(success_prints_sorted_dedup_union w2 (by decide) (by decide)).1]
  have hres : resolution w2 =
      ({"libc6 (>= 2.39)"}, { error := false, output := [] }) := by decide
  rw [hres]
  simp [sortedConstraints, Finset.sort_singleton, pyJoin]

/-- Dropping leading whitespace from a whitespace-free list is the
identity. -/
theorem no_ws_dropWhile (l : List Char)
    (h : ∀ c ∈ l, c.isWhitespace = false) :
    l.dropWhile Char.isWhitespace = l := by
  cases l with
  | nil => rfl
  | cons a t =>
    rw [List.dropWhile_cons, if_neg (by simp [h a (List.mem_cons_self a t)])]

/-- Stripping a whitespace-free string is the identity. -/
theorem pyStrip_no_ws (l : List Char)
    (h : ∀ c ∈ l, c.isWhitespace = false) :
    pyStrip (String.mk l) = String.mk l := by
  simp only [pyStrip]
  have h1 : (String.mk l).toList = l := rfl
  rw [h1, no_ws_dropWhile l h,
      no_ws_dropWhile l.reverse (fun c hc => h c (List.mem_reverse.mp hc)),
      List.reverse_reverse]

/-- C6: version extraction truncates at the first `+` or `-`: for every
version string delivered by the status query (version strings contain no
whitespace), the extracted result is the maximal prefix of the version
containing neither character. -/
theorem version_truncated_at_plus_minus
    (dv : String → Except Unit String) (pkg : String) (st : PState)
    (v : String) (hok : dv pkg = Except.ok v)
    (hv : ∀ c ∈ v.toList, c.isWhitespace = false) :
    (get_package_version dv pkg st).1 =
      String.mk (v.toList.takeWhile nonPM) := by
  simp only [get_package_version, hok]
  have hrest : (" " ++ v).toList = ' ' :: v.toList := rfl
  simp only [grepVersionMatch, hrest]
  cases hl : v.toList with
  | nil => decide
  | cons c cs =>
    have hcw : c.isWhitespace = false :=
      hv c (by rw [hl]; exact List.mem_cons_self _ _)
    have hdrop : List.dropWhile Char.isWhitespace (' ' :: c :: cs) = c :: cs := by
      rw [List.dropWhile_cons, if_pos (by decide), List.dropWhile_cons,
          if_neg (by simp [hcw])]
    have htake : List.takeWhile Char.isWhitespace (' ' :: c :: cs) = [' '] := by
      rw [List.takeWhile_cons, if_pos (by decide), List.takeWhile_cons,
          if_neg (by simp [hcw])]
    rw [hdrop, htake]
    show pyStrip
        (if nonPM c = true then String.mk (List.takeWhile nonPM (c :: cs))
         else String.mk [[' '].getLastD ' ']) =
      String.mk (List.takeWhile nonPM (c :: cs))
    cases hpm : nonPM c
    · rw [if_neg (by simp [hpm]), List.takeWhile_cons, if_neg (by simp [hpm])]
      decide
    · rw [if_pos rfl]
      apply pyStrip_no_ws
      intro x hx
      have hxm : x ∈ c :: cs := (List.takeWhile_sublist nonPM).subset hx
      exact hv x (by rw [hl]; exact hxm)

theorem version_truncated_at_plus_minus_witness :
    (get_package_version (fun _ => Except.ok "2.40.0-3ubuntu1")
        "libgdk-pixbuf-2.0-0" { error := false, output := [] }).1 = "2.40.0" := by
  rw [version_truncated_at_plus_minus (fun _ => Except.ok "2.40.0-3ubuntu1")
    "libgdk-pixbuf-2.0-0" { error := false, output := [] }
    "2.40.0-3ubuntu1" rfl (by decide)]
  decide

end Deps
